import Mathlib

/-!
Shallow embedding of the Music-App canister (`src/src/index.ts`, first file
variant, whose line numbers the specification refers to).

The two `StableBTreeMap` stores are modelled as association lists from keys
to records; `ic.caller()` and `ic.time()` become explicit `caller`/`now`
parameters and `uuidv4()` an explicit `newId` parameter.  The azle `int64`
values are JavaScript bigints during execution, modelled as `Int`;
`nat64` timestamps are modelled as `Nat`.  `Result<T, string>` is the
`Result` inductive below.
-/

/-- Mirrors azle `Result<A, string>`. -/
inductive Result (α : Type) where
  | Ok : α → Result α
  | Err : String → Result α
deriving Repr, DecidableEq

structure Song where
  id : String
  fileName : String
  mimeType : String
  title : String
  singers : List String
  genre : String
  duration : Int
  releaseDate : String
  uploadedAt : Nat
deriving Repr, DecidableEq

structure SongPayload where
  fileName : String
  mimeType : String
  title : String
  singers : List String
  genre : String
  duration : Int
  releaseDate : String
deriving Repr, DecidableEq

structure Playlist where
  id : String
  admin : String
  name : String
  description : String
  songs : List String
  totalDuration : Int
  createdAt : Nat
  updatedAt : Option Nat
deriving Repr, DecidableEq

structure PlaylistPayload where
  name : String
  description : String
deriving Repr, DecidableEq

/-- A `StableBTreeMap` modelled as an association list with unique keys. -/
abbrev SongStore := List (String × Song)

abbrev PlaylistStore := List (String × Playlist)

/-- `StableBTreeMap.get`. -/
def storeGet {V : Type} (st : List (String × V)) (k : String) : Option V :=
  match st with
  | [] => none
  | (k0, v0) :: rest => if k0 = k then some v0 else storeGet rest k

/-- `StableBTreeMap.insert`: replaces the binding when the key is present,
otherwise adds a fresh binding. -/
def storeInsert {V : Type} (st : List (String × V)) (k : String) (v : V) :
    List (String × V) :=
  match st with
  | [] => [(k, v)]
  | (k0, v0) :: rest =>
    if k0 = k then (k, v) :: rest else (k0, v0) :: storeInsert rest k v

/-- `StableBTreeMap.remove`. -/
def storeRemove {V : Type} (st : List (String × V)) (k : String) :
    List (String × V) :=
  match st with
  | [] => []
  | (k0, v0) :: rest =>
    if k0 = k then rest else (k0, v0) :: storeRemove rest k

/-- `StableBTreeMap.values`. -/
def storeValues {V : Type} (st : List (String × V)) : List V :=
  st.map Prod.snd

def errFieldCannotBeEmpty (fieldName : String) : String :=
  fieldName ++ " cannot be empty."

def errRecordWithIdNotFound (recordName id : String) : String :=
  recordName ++ " with id=" ++ id ++ " not found."

def errNonAdmin (id : String) : String :=
  "IC caller isn\x27t the admin of the playlist with id " ++ id ++ "."

def errCouldNotUpdate (recordName id : String) : String :=
  "Couldn\x27t update the " ++ recordName ++ " with id=" ++ id ++
    ", because record not found."

def errCouldNotRemove (recordName id : String) : String :=
  "Couldn\x27t remove the " ++ recordName ++ " with id=" ++ id ++
    ", because record not found."

def errAlreadyExists (recordName : String) : String :=
  recordName ++ " already exists."

def errNothingAdded : String :=
  "Unable to find the songs you wanted to add or they all already exist."

/-- `uploadSong` (index.ts lines 56-90). -/
def uploadSong (payload : SongPayload) (newId : String) (now : Nat)
    (ss : SongStore) : Result Song × SongStore :=
  if payload.fileName = "" then (.Err (errFieldCannotBeEmpty "File name"), ss)
  else if payload.mimeType = "" then (.Err (errFieldCannotBeEmpty "File type"), ss)
  else if payload.title = "" then (.Err (errFieldCannotBeEmpty "Title"), ss)
  else if payload.singers.length = 0 then (.Err "You must provide singer(s).", ss)
  else if ((storeValues ss).any fun song =>
      song.fileName == payload.fileName && song.title == payload.title) then
    (.Err (errAlreadyExists "Song"), ss)
  else
    let song : Song :=
      { id := newId, fileName := payload.fileName, mimeType := payload.mimeType,
        title := payload.title, singers := payload.singers, genre := payload.genre,
        duration := payload.duration, releaseDate := payload.releaseDate,
        uploadedAt := now }
    (.Ok song, storeInsert ss song.id song)

/-- `createPlaylist` (index.ts lines 93-123). -/
def createPlaylist (payload : PlaylistPayload) (caller newId : String) (now : Nat)
    (ps : PlaylistStore) : Result Playlist × PlaylistStore :=
  if payload.name = "" then
    (.Err (errFieldCannotBeEmpty "Playlist name"), ps)
  else if ((storeValues ps).any fun playlist => playlist.name == payload.name) then
    (.Err (errAlreadyExists "Playlist"), ps)
  else
    let playlist : Playlist :=
      { id := newId, admin := caller, songs := [], totalDuration := 0,
        createdAt := now, updatedAt := none,
        name := payload.name, description := payload.description }
    (.Ok playlist, storeInsert ps playlist.id playlist)

/-- `getPlaylist` (index.ts lines 144-153). -/
def getPlaylist (id : String) (ps : PlaylistStore) : Result Playlist :=
  if id = "" then .Err (errFieldCannotBeEmpty "Playlist id")
  else
    match storeGet ps id with
    | some playlist => .Ok playlist
    | none => .Err (errRecordWithIdNotFound "Playlist" id)

/-- `updatePlaylist` (index.ts lines 162-176): no payload validation is
performed in this variant. -/
def updatePlaylist (id : String) (payload : PlaylistPayload) (caller : String)
    (now : Nat) (ps : PlaylistStore) : Result Playlist × PlaylistStore :=
  match storeGet ps id with
  | some playlist =>
    if playlist.admin ≠ caller then (.Err (errNonAdmin id), ps)
    else
      let updatedPlaylist : Playlist :=
        { playlist with
          name := payload.name, description := payload.description,
          updatedAt := some now }
      (.Ok updatedPlaylist, storeInsert ps playlist.id updatedPlaylist)
  | none => (.Err (errCouldNotUpdate "playlist" id), ps)

/-- The `songs.forEach` loop of `addSongsToPlaylist` (index.ts lines 192-203).
`duplicatedSong` is `songs.find(id => id === songId)`, used for truthiness:
the found element is `songId` itself, which is falsy in JavaScript exactly
when it is the empty string, hence the `songId ≠ ""` conjunct. -/
def addLoop (ss : SongStore) (candidates songs : List String)
    (totalDuration : Int) (addFlag : Bool) : List String × Int × Bool :=
  match candidates with
  | [] => (songs, totalDuration, addFlag)
  | songId :: rest =>
    match storeGet ss songId with
    | some existingSong =>
      if songId ∈ songs ∧ songId ≠ "" then
        addLoop ss rest songs totalDuration addFlag
      else
        addLoop ss rest (songs ++ [songId])
          (totalDuration + existingSong.duration) true
    | none => addLoop ss rest songs totalDuration addFlag

/-- `addSongsToPlaylist` (index.ts lines 179-214). -/
def addSongsToPlaylist (id : String) (songIds : List String) (caller : String)
    (now : Nat) (ss : SongStore) (ps : PlaylistStore) :
    Result Playlist × PlaylistStore :=
  if songIds.length = 0 then (.Err (errFieldCannotBeEmpty "Song list"), ps)
  else
    match storeGet ps id with
    | some playlist =>
      if playlist.admin ≠ caller then (.Err (errNonAdmin id), ps)
      else
        let r := addLoop ss songIds playlist.songs playlist.totalDuration false
        if r.2.2 = false then (.Err errNothingAdded, ps)
        else
          let updatedPlaylist : Playlist :=
            { playlist with
              songs := r.1, totalDuration := r.2.1,
              updatedAt := some now }
          (.Ok updatedPlaylist, storeInsert ps playlist.id updatedPlaylist)
    | none => (.Err (errCouldNotUpdate "playlist" id), ps)

/-- `deletePlaylist` (index.ts lines 218-230). -/
def deletePlaylist (id caller : String) (ps : PlaylistStore) :
    Result Playlist × PlaylistStore :=
  match storeGet ps id with
  | some playlist =>
    if playlist.admin ≠ caller then (.Err (errNonAdmin id), ps)
    else (.Ok playlist, storeRemove ps id)
  | none => (.Err (errCouldNotRemove "playlist" id), ps)

/-- `songs.splice(songs.findIndex(id => id === songId), 1)`: removes the
first occurrence of `sid`. -/
def removeFirst (songs : List String) (sid : String) : List String :=
  match songs with
  | [] => []
  | x :: rest => if x = sid then rest else x :: removeFirst rest sid

/-- `deleteSongFromPlaylist` (index.ts lines 233-266).  `findIndex != -1`
is membership of `songId` in `playlist.songs`. -/
def deleteSongFromPlaylist (playlistId songId caller : String) (now : Nat)
    (ss : SongStore) (ps : PlaylistStore) : Result Playlist × PlaylistStore :=
  if playlistId = "" then (.Err (errFieldCannotBeEmpty "Playlist id"), ps)
  else if songId = "" then (.Err (errFieldCannotBeEmpty "Song id"), ps)
  else
    match storeGet ps playlistId with
    | some playlist =>
      if playlist.admin ≠ caller then (.Err (errNonAdmin playlistId), ps)
      else if songId ∈ playlist.songs then
        let newTotal : Int :=
          match storeGet ss songId with
          | some deletingSong =>
            if playlist.totalDuration - deletingSong.duration ≥ 0 then
              playlist.totalDuration - deletingSong.duration
            else 0
          | none => 0
        let updatedPlaylist : Playlist :=
          { playlist with
            totalDuration := newTotal,
            songs := removeFirst playlist.songs songId,
            updatedAt := some now }
        (.Ok updatedPlaylist, storeInsert ps playlist.id updatedPlaylist)
      else (.Ok playlist, ps)
    | none => (.Err (errCouldNotRemove "playlist" playlistId), ps)

/-- The duration a song id contributes to a playlist total: its catalog
duration when it exists, nothing when it does not. -/
def songDur (ss : SongStore) (songId : String) : Int :=
  match storeGet ss songId with
  | some song => song.duration
  | none => 0

/-- Sum of `duration` over the ids of a playlist `songs` list that exist in
the song store (missing ids contribute 0). -/
def sumDurations (ss : SongStore) : List String → Int
  | [] => 0
  | songId :: rest => songDur ss songId + sumDurations ss rest

/-- The spec's `totalDuration` invariant, over every playlist in the store. -/
def DurationInv (ss : SongStore) (ps : PlaylistStore) : Prop :=
  ∀ kv ∈ ps, kv.2.totalDuration = sumDurations ss kv.2.songs

/-- The spec's no-duplicates invariant on every playlist `songs` list. -/
def NodupInv (ps : PlaylistStore) : Prop :=
  ∀ kv ∈ ps, kv.2.songs.Nodup

/-! ## Store lemmas -/

theorem storeGet_mem {V : Type} {st : List (String × V)} {k : String} {v : V}
    (h : storeGet st k = some v) : (k, v) ∈ st := by
  induction st with
  | nil => simp [storeGet] at h
  | cons hd tl ih =>
    rcases hd with ⟨k0, v0⟩
    by_cases hk : k0 = k
    · subst hk
      simp [storeGet] at h
      simp [h]
    · simp [storeGet, hk] at h
      exact List.mem_cons_of_mem _ (ih h)

theorem mem_storeInsert {V : Type} {st : List (String × V)} {k : String} {v : V}
    {q : String × V} (hq : q ∈ storeInsert st k v) : q = (k, v) ∨ q ∈ st := by
  induction st with
  | nil => exact Or.inl (by simpa [storeInsert] using hq)
  | cons hd tl ih =>
    rcases hd with ⟨k0, v0⟩
    by_cases hk : k0 = k
    · subst hk
      simp [storeInsert] at hq
      rcases hq with hq | hq
      · exact Or.inl (by simp [hq])
      · exact Or.inr (List.mem_cons_of_mem _ hq)
    · simp [storeInsert, hk] at hq
      rcases hq with hq | hq
      · exact Or.inr (by simp [hq])
      · rcases ih hq with h | h
        · exact Or.inl h
        · exact Or.inr (List.mem_cons_of_mem _ h)

theorem storeGet_storeInsert_self {V : Type} (st : List (String × V))
    (k : String) (v : V) : storeGet (storeInsert st k v) k = some v := by
  induction st with
  | nil => simp [storeInsert, storeGet]
  | cons hd tl ih =>
    rcases hd with ⟨k0, v0⟩
    by_cases hk : k0 = k
    · subst hk
      simp [storeInsert, storeGet]
    · simp [storeInsert, storeGet, hk, ih]

theorem mem_storeRemove {V : Type} {st : List (String × V)} {k : String}
    {q : String × V} (hq : q ∈ storeRemove st k) : q ∈ st := by
  induction st with
  | nil => simp [storeRemove] at hq
  | cons hd tl ih =>
    rcases hd with ⟨k0, v0⟩
    by_cases hk : k0 = k
    · subst hk
      simp [storeRemove] at hq
      exact List.mem_cons_of_mem _ hq
    · simp [storeRemove, hk] at hq
      rcases hq with hq | hq
      · simp [hq]
      · exact List.mem_cons_of_mem _ (ih hq)

/-! ## Duration-sum lemmas -/

theorem sumDurations_append (ss : SongStore) (l1 l2 : List String) :
    sumDurations ss (l1 ++ l2) = sumDurations ss l1 + sumDurations ss l2 := by
  induction l1 with
  | nil => simp [sumDurations]
  | cons x rest ih => simp [sumDurations, ih]; ring

theorem addLoop_duration (ss : SongStore) (cands : List String) :
    ∀ (songs : List String) (totalDuration : Int) (addFlag : Bool),
      totalDuration = sumDurations ss songs →
      (addLoop ss cands songs totalDuration addFlag).2.1 =
        sumDurations ss (addLoop ss cands songs totalDuration addFlag).1 := by
  induction cands with
  | nil => intro songs tot flag h; simpa [addLoop] using h
  | cons c rest ih =>
    intro songs tot flag h
    by_cases hc : storeGet ss c = none
    · simpa [addLoop, hc] using ih songs tot flag h
    · rcases Option.ne_none_iff_exists.mp hc with ⟨song, hsong⟩
      by_cases hdup : c ∈ songs ∧ c ≠ ""
      · simpa [addLoop, ← hsong, hdup] using ih songs tot flag h
      · have hsum : tot + song.duration = sumDurations ss (songs ++ [c]) := by
          rw [sumDurations_append, ← h]
          simp [sumDurations, songDur, ← hsong]
        simpa [addLoop, ← hsong, hdup] using
          ih (songs ++ [c]) (tot + song.duration) true hsum

theorem sumDurations_removeFirst (ss : SongStore) {songs : List String}
    {sid : String} (hmem : sid ∈ songs) :
    sumDurations ss (removeFirst songs sid) =
      sumDurations ss songs - songDur ss sid := by
  induction songs with
  | nil => simp at hmem
  | cons x rest ih =>
    by_cases hx : x = sid
    · subst hx
      simp [removeFirst, sumDurations]
    · have hrest : sid ∈ rest := by
        rcases List.mem_cons.mp hmem with h | h
        · exact absurd h.symm hx
        · exact h
      simp [removeFirst, hx, sumDurations, ih hrest]
      ring

/-! ## addLoop / removeFirst structural lemmas -/

theorem addLoop_skip_all (ss : SongStore) (cands : List String)
    (hss : storeGet ss "" = none) :
    ∀ (songs : List String) (totalDuration : Int) (addFlag : Bool),
      (∀ s ∈ cands, storeGet ss s = none ∨ s ∈ songs) →
      addLoop ss cands songs totalDuration addFlag =
        (songs, totalDuration, addFlag) := by
  induction cands with
  | nil => intro songs tot flag _; simp [addLoop]
  | cons c rest ih =>
    intro songs tot flag hall
    rcases hall c (List.mem_cons_self c rest) with hc | hc
    · simp [addLoop, hc]
      exact ih songs tot flag fun s hs => hall s (List.mem_cons_of_mem _ hs)
    · rcases h : storeGet ss c with _ | song
      · simp [addLoop, h]
        exact ih songs tot flag fun s hs => hall s (List.mem_cons_of_mem _ hs)
      · have hne : c ≠ "" := by
          intro hceq
          rw [hceq, hss] at h
          exact Option.noConfusion h
        simp [addLoop, h, hc, hne]
        exact ih songs tot flag fun s hs => hall s (List.mem_cons_of_mem _ hs)

theorem addLoop_nodup (ss : SongStore) (cands : List String)
    (hss : storeGet ss "" = none) :
    ∀ (songs : List String) (totalDuration : Int) (addFlag : Bool),
      songs.Nodup → (addLoop ss cands songs totalDuration addFlag).1.Nodup := by
  induction cands with
  | nil => intro songs tot flag h; simpa [addLoop] using h
  | cons c rest ih =>
    intro songs tot flag hnd
    rcases h : storeGet ss c with _ | song
    · simpa [addLoop, h] using ih songs tot flag hnd
    · have hne : c ≠ "" := by
        intro hceq
        rw [hceq, hss] at h
        exact Option.noConfusion h
      by_cases hmem : c ∈ songs
      · simpa [addLoop, h, hmem, hne] using ih songs tot flag hnd
      · have hnd2 : (songs ++ [c]).Nodup := by
          simp [List.nodup_append, hnd, hmem]
        simpa [addLoop, h, hmem] using
          ih (songs ++ [c]) (tot + song.duration) true hnd2

theorem mem_removeFirst {songs : List String} {sid a : String}
    (h : a ∈ removeFirst songs sid) : a ∈ songs := by
  induction songs with
  | nil => simp [removeFirst] at h
  | cons x rest ih =>
    by_cases hx : x = sid
    · subst hx
      simp [removeFirst] at h
      exact List.mem_cons_of_mem _ h
    · simp [removeFirst, hx] at h
      rcases h with h | h
      · simp [h]
      · exact List.mem_cons_of_mem _ (ih h)

theorem removeFirst_nodup {songs : List String} (sid : String)
    (hnd : songs.Nodup) : (removeFirst songs sid).Nodup := by
  induction songs with
  | nil => simp [removeFirst]
  | cons x rest ih =>
    rcases List.nodup_cons.mp hnd with ⟨hx, hrest⟩
    by_cases hxs : x = sid
    · subst hxs
      simpa [removeFirst] using hrest
    · simp only [removeFirst, if_neg hxs]
      exact List.nodup_cons.mpr ⟨fun hc => hx (mem_removeFirst hc), ih hrest⟩

theorem not_mem_removeFirst_self {songs : List String} {sid : String}
    (hnd : songs.Nodup) : sid ∉ removeFirst songs sid := by
  induction songs with
  | nil => simp [removeFirst]
  | cons x rest ih =>
    rcases List.nodup_cons.mp hnd with ⟨hx, hrest⟩
    by_cases hxs : x = sid
    · subst hxs
      simpa [removeFirst] using hx
    · simp only [removeFirst, if_neg hxs]
      intro hc
      rcases List.mem_cons.mp hc with hc | hc
      · exact hxs hc.symm
      · exact ih hrest hc

/-! ## Concrete sample data for witnesses and counterexamples -/

def songA : Song :=
  { id := "a", fileName := "fa", mimeType := "m", title := "ta",
    singers := ["x"], genre := "g", duration := 120, releaseDate := "r",
    uploadedAt := 0 }

def songB : Song :=
  { id := "b", fileName := "fb", mimeType := "m", title := "tb",
    singers := ["x"], genre := "g", duration := 100, releaseDate := "r",
    uploadedAt := 0 }

def ssW : SongStore := [("a", songA), ("b", songB)]

def plW : Playlist :=
  { id := "p", admin := "alice", name := "P", description := "D",
    songs := ["b"], totalDuration := 100, createdAt := 0, updatedAt := none }

def psW : PlaylistStore := [("p", plW)]

/-- A playlist that references the catalog song `"b"` together with a stale
id `"a"` that is absent from `ssB`; its stored total (100) is exactly the sum
over the ids that still exist. -/
def plB : Playlist :=
  { id := "p", admin := "alice", name := "P", description := "D",
    songs := ["a", "b"], totalDuration := 100, createdAt := 0,
    updatedAt := none }

def ssB : SongStore := [("b", songB)]

def psB : PlaylistStore := [("p", plB)]

/-! ## Claim theorems -/

/-- C2: for an existing playlist and any caller different from its admin,
each of `updatePlaylist`, `addSongsToPlaylist`, `deleteSongFromPlaylist` and
`deletePlaylist` returns the authorization error and leaves the playlist
store (hence the playlist record) unchanged.  The side conditions
`songIds ≠ []`, `pid ≠ ""`, `sid ≠ ""` keep the call from being rejected by
the argument-shape checks that run before the playlist is even looked up. -/
theorem authorization_blocks_mutations
    (pid : String) (payload : PlaylistPayload) (songIds : List String)
    (sid caller : String) (now : Nat) (ss : SongStore) (ps : PlaylistStore)
    (pl : Playlist) (hget : storeGet ps pid = some pl)
    (hne : caller ≠ pl.admin) (hsongIds : songIds ≠ [])
    (hpid : pid ≠ "") (hsid : sid ≠ "") :
    updatePlaylist pid payload caller now ps = (.Err (errNonAdmin pid), ps) ∧
    addSongsToPlaylist pid songIds caller now ss ps =
      (.Err (errNonAdmin pid), ps) ∧
    deleteSongFromPlaylist pid sid caller now ss ps =
      (.Err (errNonAdmin pid), ps) ∧
    deletePlaylist pid caller ps = (.Err (errNonAdmin pid), ps) := by
  have hadmin : pl.admin ≠ caller := fun h => hne h.symm
  have hlen : ¬ songIds.length = 0 := by
    simpa [List.length_eq_zero] using hsongIds
  refine ⟨?_, ?_, ?_, ?_⟩
  · simp [updatePlaylist, hget, hadmin]
  · simp [addSongsToPlaylist, hget, hadmin, hlen]
  · simp [deleteSongFromPlaylist, hget, hadmin, hpid, hsid]
  · simp [deletePlaylist, hget, hadmin]

/-- C2 witness at concrete inputs. -/
theorem authorization_blocks_mutations_witness :
    updatePlaylist "p" ⟨"n", "d"⟩ "bob" 3 psW = (.Err (errNonAdmin "p"), psW) ∧
    addSongsToPlaylist "p" ["a"] "bob" 3 ssW psW =
      (.Err (errNonAdmin "p"), psW) ∧
    deleteSongFromPlaylist "p" "b" "bob" 3 ssW psW =
      (.Err (errNonAdmin "p"), psW) ∧
    deletePlaylist "p" "bob" psW = (.Err (errNonAdmin "p"), psW) :=
  authorization_blocks_mutations "p" ⟨"n", "d"⟩ ["a"] "b" "bob" 3 ssW psW plW
    (by decide) (by decide) (by decide) (by decide) (by decide)

/-- C3: when every candidate id is absent from the song catalog or already a
member of the playlist, the admin's `addSongsToPlaylist` fails with the
dedicated nothing-added error and the playlist store is untouched.
`storeGet ss "" = none` reflects that catalog keys are generated uuids, so
no song is stored under the empty id. -/
theorem addSongs_nothing_added
    (pid : String) (songIds : List String) (now : Nat) (ss : SongStore)
    (ps : PlaylistStore) (pl : Playlist)
    (hget : storeGet ps pid = some pl) (hne : songIds ≠ [])
    (hss : storeGet ss "" = none)
    (hall : ∀ s ∈ songIds, storeGet ss s = none ∨ s ∈ pl.songs) :
    addSongsToPlaylist pid songIds pl.admin now ss ps =
      (.Err errNothingAdded, ps) := by
  have hlen : ¬ songIds.length = 0 := by
    simpa [List.length_eq_zero] using hne
  have hloop := addLoop_skip_all ss songIds hss pl.songs pl.totalDuration false hall
  simp [addSongsToPlaylist, hget, hlen, hloop]

/-- C3 witness: one nonexistent id and one already-member id. -/
theorem addSongs_nothing_added_witness :
    addSongsToPlaylist "p" ["zz", "b"] "alice" 9 ssW psW =
      (.Err errNothingAdded, psW) :=
  addSongs_nothing_added "p" ["zz", "b"] 9 ssW psW plW (by decide) (by decide)
    (by decide) (by decide)

/-- C8: deleting a song id that is absent from the playlist is a no-op: the
admin gets back a record equal to the stored one in every field, including
`updatedAt`, and no store write occurs. -/
theorem deleteSong_absent_noop
    (pid sid : String) (now : Nat) (ss : SongStore) (ps : PlaylistStore)
    (pl : Playlist) (hpid : pid ≠ "") (hsid : sid ≠ "")
    (hget : storeGet ps pid = some pl) (hnmem : sid ∉ pl.songs) :
    deleteSongFromPlaylist pid sid pl.admin now ss ps = (.Ok pl, ps) := by
  simp [deleteSongFromPlaylist, hget, hpid, hsid, hnmem]

/-- C8 witness. -/
theorem deleteSong_absent_noop_witness :
    deleteSongFromPlaylist "p" "zz" "alice" 4 ssW psW = (.Ok plW, psW) :=
  deleteSong_absent_noop "p" "zz" 4 ssW psW plW (by decide) (by decide)
    (by decide) (by decide)

/-- C5 counterexample: `updatePlaylist` accepts a fully blank payload.  With
the playlist `"p"` present and its admin calling, a payload whose `name` and
`description` are both empty is applied successfully instead of failing with
a validation error. -/
theorem updatePlaylist_accepts_blank_payload :
    (updatePlaylist "p" ⟨"", ""⟩ "alice" 5 psW).1 =
      .Ok { id := "p", admin := "alice", name := "", description := "",
            songs := ["b"], totalDuration := 100, createdAt := 0,
            updatedAt := some 5 } := by
  decide

/-- C5 (amended): `updatePlaylist` performs no blank-validation on the
payload; whenever the playlist exists and the caller is its admin it
replaces `name` and `description` with the payload values (blank or not),
sets `updatedAt := now`, persists the record under the playlist's own id,
and returns it. -/
theorem updatePlaylist_success_behavior
    (pid : String) (payload : PlaylistPayload) (now : Nat)
    (ps : PlaylistStore) (pl : Playlist)
    (hget : storeGet ps pid = some pl) :
    (let upd : Playlist :=
      { pl with
        name := payload.name, description := payload.description,
        updatedAt := some now }
     updatePlaylist pid payload pl.admin now ps =
      (.Ok upd, storeInsert ps pl.id upd)) := by
  simp [updatePlaylist, hget]

/-- C5 witness. -/
theorem updatePlaylist_success_behavior_witness :
    updatePlaylist "p" ⟨"N2", "D2"⟩ "alice" 6 psW =
      (.Ok { plW with name := "N2", description := "D2", updatedAt := some 6 },
        storeInsert psW "p" { plW with
                              name := "N2", description := "D2",
                              updatedAt := some 6 }) :=
  updatePlaylist_success_behavior "p" ⟨"N2", "D2"⟩ 6 psW plW (by decide)

/-- C6 counterexample: a whitespace-only `fileName` is accepted by
`uploadSong` (the check is `=== ""`, with no trimming), so the claim that
blank/whitespace-only values are rejected fails. -/
theorem uploadSong_accepts_whitespace_fileName :
    (uploadSong ⟨" ", "m", "t", ["s"], "g", 10, "r"⟩ "id1" 7 []).1 =
      .Ok { id := "id1", fileName := " ", mimeType := "m", title := "t",
            singers := ["s"], genre := "g", duration := 10,
            releaseDate := "r", uploadedAt := 7 } := by
  decide

/-- C6 (amended): `uploadSong` fails with a validation error naming the
first offending field when `fileName`, `mimeType` or `title` is exactly the
empty string (whitespace-only values pass), or when `singers` is empty,
checked in the fixed order fileName, mimeType, title, singers. -/
theorem uploadSong_validation_order
    (payload : SongPayload) (newId : String) (now : Nat) (ss : SongStore) :
    (payload.fileName = "" →
      uploadSong payload newId now ss =
        (.Err (errFieldCannotBeEmpty "File name"), ss)) ∧
    (payload.fileName ≠ "" → payload.mimeType = "" →
      uploadSong payload newId now ss =
        (.Err (errFieldCannotBeEmpty "File type"), ss)) ∧
    (payload.fileName ≠ "" → payload.mimeType ≠ "" → payload.title = "" →
      uploadSong payload newId now ss =
        (.Err (errFieldCannotBeEmpty "Title"), ss)) ∧
    (payload.fileName ≠ "" → payload.mimeType ≠ "" → payload.title ≠ "" →
      payload.singers = [] →
      uploadSong payload newId now ss =
        (.Err "You must provide singer(s).", ss)) := by
  refine ⟨?_, ?_, ?_, ?_⟩
  · intro h1
    simp [uploadSong, h1]
  · intro h1 h2
    simp [uploadSong, h1, h2]
  · intro h1 h2 h3
    simp [uploadSong, h1, h2, h3]
  · intro h1 h2 h3 h4
    simp [uploadSong, h1, h2, h3, h4]

/-- C6 witness: empty title with the earlier fields non-empty. -/
theorem uploadSong_validation_order_witness :
    uploadSong ⟨"f", "m", "", ["s"], "g", 1, "r"⟩ "i" 0 [] =
      (.Err (errFieldCannotBeEmpty "Title"), []) :=
  (uploadSong_validation_order ⟨"f", "m", "", ["s"], "g", 1, "r"⟩ "i" 0
    []).2.2.1 (by decide) (by decide) (by decide)

/-- C7: adding `[s1, s1]` where `s1` exists in the catalog and is not yet a
member appends `s1` exactly once and adds its duration exactly once; the
dedup check inside the loop sees the id appended by the first iteration.
`s1 ≠ ""` holds for every catalog id (they are generated uuids) and rules
out the JavaScript falsy-string corner of the dedup check. -/
theorem addSongs_dedup_single_call
    (pid s1 : String) (now : Nat) (ss : SongStore) (ps : PlaylistStore)
    (pl : Playlist) (song : Song)
    (hget : storeGet ps pid = some pl) (hsong : storeGet ss s1 = some song)
    (hnmem : s1 ∉ pl.songs) (hs1 : s1 ≠ "") :
    (let upd : Playlist :=
      { pl with
        songs := pl.songs ++ [s1],
        totalDuration := pl.totalDuration + song.duration,
        updatedAt := some now }
     addSongsToPlaylist pid [s1, s1] pl.admin now ss ps =
        (.Ok upd, storeInsert ps pl.id upd) ∧
      upd.songs.count s1 = 1) := by
  have hloop : addLoop ss [s1, s1] pl.songs pl.totalDuration false =
      (pl.songs ++ [s1], pl.totalDuration + song.duration, true) := by
    simp [addLoop, hsong, hnmem, hs1]
  refine ⟨?_, ?_⟩
  · simp [addSongsToPlaylist, hget, hloop]
  · simp [List.count_append, List.count_eq_zero.mpr hnmem]

/-- C7 witness: `"a"` (duration 120) added to the playlist `["b"]` once. -/
theorem addSongs_dedup_single_call_witness :
    addSongsToPlaylist "p" ["a", "a"] "alice" 9 ssW psW =
      (.Ok { plW with
             songs := ["b", "a"], totalDuration := 220, updatedAt := some 9 },
        storeInsert psW "p"
          { plW with
            songs := ["b", "a"], totalDuration := 220, updatedAt := some 9 }) ∧
    (["b", "a"] : List String).count "a" = 1 := by
  have h := addSongs_dedup_single_call "p" "a" 9 ssW psW plW songA
    (by decide) (by decide) (by decide) (by decide)
  exact ⟨by simpa [plW, songA] using h.1, by decide⟩

/-- C4: deleting a member song id (admin caller) removes its first
occurrence from `songs` (under the no-duplicates invariant, the id is gone
entirely), subtracts the catalog duration when the song still exists and
the subtraction stays non-negative and otherwise clamps `totalDuration` to
0, stamps `updatedAt := now`, and persists the record. -/
theorem deleteSong_present_behavior
    (pid sid : String) (now : Nat) (ss : SongStore) (ps : PlaylistStore)
    (pl : Playlist) (hpid : pid ≠ "") (hsid : sid ≠ "")
    (hget : storeGet ps pid = some pl) (hmem : sid ∈ pl.songs)
    (hnd : pl.songs.Nodup) :
    (let newTotal : Int :=
      match storeGet ss sid with
      | some song =>
        if pl.totalDuration - song.duration ≥ 0 then
          pl.totalDuration - song.duration
        else 0
      | none => 0
     let upd : Playlist :=
      { pl with
        totalDuration := newTotal,
        songs := removeFirst pl.songs sid,
        updatedAt := some now }
     deleteSongFromPlaylist pid sid pl.admin now ss ps =
        (.Ok upd, storeInsert ps pl.id upd) ∧
      sid ∉ upd.songs) := by
  refine ⟨?_, ?_⟩
  · simp [deleteSongFromPlaylist, hget, hpid, hsid, hmem]
  · exact not_mem_removeFirst_self hnd

/-- C4 witness: deleting the member `"b"` (duration 100) empties the
playlist and brings the total to 0 through the subtraction branch. -/
theorem deleteSong_present_behavior_witness :
    deleteSongFromPlaylist "p" "b" "alice" 4 ssW psW =
      (.Ok { plW with totalDuration := 0, songs := [], updatedAt := some 4 },
        storeInsert psW "p"
          { plW with totalDuration := 0, songs := [], updatedAt := some 4 }) ∧
    "b" ∉ ([] : List String) := by
  have h := deleteSong_present_behavior "p" "b" 4 ssW psW plW
    (by decide) (by decide) (by decide) (by decide) (by decide)
  refine ⟨?_, by decide⟩
  simpa [plW, songB, ssW, storeGet, removeFirst] using h.1

theorem nodupInv_storeInsert {ps : PlaylistStore} {k : String} {pl : Playlist}
    (hinv : NodupInv ps) (hnd : pl.songs.Nodup) :
    NodupInv (storeInsert ps k pl) := by
  intro kv hkv
  rcases mem_storeInsert hkv with h | h
  · rw [h]
    exact hnd
  · exact hinv kv h

/-- C9: no playlist-store operation introduces a duplicate song id into any
playlist: `createPlaylist` starts from `[]`, `updatePlaylist` keeps `songs`,
`addSongsToPlaylist` appends only ids that are not yet members,
`deletePlaylist` only drops a record, and `deleteSongFromPlaylist` only
removes an occurrence.  (`uploadSong` and the read operations do not touch
the playlist store at all.)  `storeGet ss "" = none` reflects that catalog
keys are generated uuids, never the empty string. -/
theorem nodupInv_preservation
    (ss : SongStore) (ps : PlaylistStore) (payload : PlaylistPayload)
    (caller newId : String) (now : Nat) (pid : String)
    (songIds : List String) (sid : String)
    (hss : storeGet ss "" = none) (hinv : NodupInv ps) :
    NodupInv (createPlaylist payload caller newId now ps).2 ∧
    NodupInv (updatePlaylist pid payload caller now ps).2 ∧
    NodupInv (addSongsToPlaylist pid songIds caller now ss ps).2 ∧
    NodupInv (deletePlaylist pid caller ps).2 ∧
    NodupInv (deleteSongFromPlaylist pid sid caller now ss ps).2 := by
  refine ⟨?_, ?_, ?_, ?_, ?_⟩
  · simp only [createPlaylist]
    split
    · exact hinv
    · split
      · exact hinv
      · exact nodupInv_storeInsert hinv (by simp)
  · simp only [updatePlaylist]
    split
    · next playlist heq =>
      split
      · exact hinv
      · exact nodupInv_storeInsert hinv (hinv (pid, playlist) (storeGet_mem heq))
    · exact hinv
  · simp only [addSongsToPlaylist]
    split
    · exact hinv
    · split
      · next playlist heq =>
        split
        · exact hinv
        · split
          · exact hinv
          · exact nodupInv_storeInsert hinv
              (addLoop_nodup ss songIds hss playlist.songs playlist.totalDuration
                false (hinv (pid, playlist) (storeGet_mem heq)))
      · exact hinv
  · simp only [deletePlaylist]
    split
    · split
      · exact hinv
      · exact fun kv hkv => hinv kv (mem_storeRemove hkv)
    · exact hinv
  · simp only [deleteSongFromPlaylist]
    split
    · exact hinv
    · split
      · exact hinv
      · split
        · next playlist heq =>
          split
          · exact hinv
          · split
            · exact nodupInv_storeInsert hinv
                (removeFirst_nodup sid (hinv (pid, playlist) (storeGet_mem heq)))
            · exact hinv
        · exact hinv

/-- C9 witness: the invariant holds on the sample store and is preserved by
one instance of every operation. -/
theorem nodupInv_preservation_witness :
    NodupInv (createPlaylist ⟨"Q", "d"⟩ "alice" "q" 3 psW).2 ∧
    NodupInv (updatePlaylist "p" ⟨"Q", "d"⟩ "alice" 3 psW).2 ∧
    NodupInv (addSongsToPlaylist "p" ["a"] "alice" 3 ssW psW).2 ∧
    NodupInv (deletePlaylist "p" "alice" psW).2 ∧
    NodupInv (deleteSongFromPlaylist "p" "b" "alice" 3 ssW psW).2 :=
  nodupInv_preservation ssW psW ⟨"Q", "d"⟩ "alice" "q" 3 "p" ["a"] "b"
    (by decide) (by unfold NodupInv; decide)

/-- C1 counterexample: `psB` satisfies the duration invariant (the stale id
`"a"` contributes nothing, `"b"` contributes 100), but deleting the stale
id `"a"` takes the clamp branch and resets `totalDuration` to 0 while the
remaining member `"b"` still sums to 100 — so `deleteSongFromPlaylist` does
not preserve the invariant. -/
theorem durationInv_not_preserved_by_delete :
    DurationInv ssB psB ∧
    ¬ DurationInv ssB (deleteSongFromPlaylist "p" "a" "alice" 1 ssB psB).2 := by
  constructor
  · unfold DurationInv
    decide
  · unfold DurationInv
    decide

theorem durationInv_storeInsert {ss : SongStore} {ps : PlaylistStore}
    {k : String} {pl : Playlist} (hinv : DurationInv ss ps)
    (h : pl.totalDuration = sumDurations ss pl.songs) :
    DurationInv ss (storeInsert ps k pl) := by
  intro kv hkv
  rcases mem_storeInsert hkv with hq | hq
  · rw [hq]
    exact h
  · exact hinv kv hq

/-- C1 (amended): the duration invariant (every stored `totalDuration`
equals the sum of catalog durations over the playlist's song ids that exist
in the song store) is established by `createPlaylist` and preserved by
`addSongsToPlaylist` unconditionally; `deleteSongFromPlaylist` preserves it
only under the extra proviso that the deleted id, when it is a member,
still exists in the catalog and its duration does not exceed the stored
total — otherwise the clamp to 0 breaks the invariant, as the
counterexample shows. -/
theorem durationInv_preservation
    (ss : SongStore) (ps : PlaylistStore) (payload : PlaylistPayload)
    (caller newId : String) (now : Nat) (pid : String)
    (songIds : List String) (sid : String)
    (hinv : DurationInv ss ps) :
    DurationInv ss (createPlaylist payload caller newId now ps).2 ∧
    DurationInv ss (addSongsToPlaylist pid songIds caller now ss ps).2 ∧
    ((∀ pl, storeGet ps pid = some pl → sid ∈ pl.songs →
        ∃ song, storeGet ss sid = some song ∧
          pl.totalDuration - song.duration ≥ 0) →
      DurationInv ss (deleteSongFromPlaylist pid sid caller now ss ps).2) := by
  refine ⟨?_, ?_, ?_⟩
  · simp only [createPlaylist]
    split
    · exact hinv
    · split
      · exact hinv
      · exact durationInv_storeInsert hinv (by simp [sumDurations])
  · simp only [addSongsToPlaylist]
    split
    · exact hinv
    · split
      · next playlist heq =>
        split
        · exact hinv
        · split
          · exact hinv
          · exact durationInv_storeInsert hinv
              (addLoop_duration ss songIds playlist.songs playlist.totalDuration
                false (hinv (pid, playlist) (storeGet_mem heq)))
      · exact hinv
  · intro hdel
    simp only [deleteSongFromPlaylist]
    split
    · exact hinv
    · split
      · exact hinv
      · split
        · next playlist heq =>
          split
          · exact hinv
          · split
            · next hmem =>
              rcases hdel playlist heq hmem with ⟨song, hsong, hge⟩
              have htot := hinv (pid, playlist) (storeGet_mem heq)
              refine durationInv_storeInsert hinv ?_
              simp only [hsong, hge, if_pos, sumDurations_removeFirst ss hmem]
              simp [songDur, hsong, htot]
              exact htot
            · exact hinv
        · exact hinv

/-- C1 witness: one instance of each of the three operations on the sample
state, with the delete proviso discharged for the member `"b"`. -/
theorem durationInv_preservation_witness :
    DurationInv ssW (createPlaylist ⟨"Q", "d"⟩ "alice" "q" 3 psW).2 ∧
    DurationInv ssW (addSongsToPlaylist "p" ["a"] "alice" 3 ssW psW).2 ∧
    DurationInv ssW (deleteSongFromPlaylist "p" "b" "alice" 3 ssW psW).2 := by
  have h := durationInv_preservation ssW psW ⟨"Q", "d"⟩ "alice" "q" 3 "p"
    ["a"] "b" (by unfold DurationInv; decide)
  refine ⟨h.1, h.2.1, h.2.2 ?_⟩
  intro pl hp _
  have hpl : plW = pl := by simpa [psW, storeGet] using hp
  subst hpl
  exact ⟨songB, by decide, by decide⟩

/-- C10: whenever `updatePlaylist`, `addSongsToPlaylist` or
`deleteSongFromPlaylist` returns `Ok q`, the record `q` is exactly what the
playlist store holds under the same id afterwards, so an immediate
`getPlaylist` returns an equal record.  `hkey` is the key-consistency
invariant of reachable stores (every record is stored under its own `id`;
both create and the mutating writes insert at `playlist.id`). -/
theorem success_result_matches_store
    (pid : String) (payload : PlaylistPayload) (songIds : List String)
    (sid caller : String) (now : Nat) (ss : SongStore) (ps : PlaylistStore)
    (q : Playlist) (hkey : ∀ kv ∈ ps, kv.2.id = kv.1) (hpid : pid ≠ "") :
    ((updatePlaylist pid payload caller now ps).1 = .Ok q →
      getPlaylist pid (updatePlaylist pid payload caller now ps).2 = .Ok q) ∧
    ((addSongsToPlaylist pid songIds caller now ss ps).1 = .Ok q →
      getPlaylist pid (addSongsToPlaylist pid songIds caller now ss ps).2 =
        .Ok q) ∧
    ((deleteSongFromPlaylist pid sid caller now ss ps).1 = .Ok q →
      getPlaylist pid (deleteSongFromPlaylist pid sid caller now ss ps).2 =
        .Ok q) := by
  refine ⟨?_, ?_, ?_⟩
  · simp only [updatePlaylist]
    split
    · next playlist heq =>
      have hid : playlist.id = pid := hkey (pid, playlist) (storeGet_mem heq)
      split
      · intro h
        simp at h
      · intro h
        simp only at h
        rw [Result.Ok.injEq] at h
        subst h; simp [getPlaylist, hpid, hid, storeGet_storeInsert_self]
    · intro h
      simp at h
  · simp only [addSongsToPlaylist]
    split
    · intro h
      simp at h
    · split
      · next playlist heq =>
        have hid : playlist.id = pid := hkey (pid, playlist) (storeGet_mem heq)
        split
        · intro h
          simp at h
        · split
          · intro h
            simp at h
          · intro h
            simp only at h
            rw [Result.Ok.injEq] at h
            subst h; simp [getPlaylist, hpid, hid, storeGet_storeInsert_self]
      · intro h
        simp at h
  · simp only [deleteSongFromPlaylist]
    split
    · intro h
      simp at h
    · split
      · intro h
        simp at h
      · split
        · next playlist heq =>
          have hid : playlist.id = pid := hkey (pid, playlist) (storeGet_mem heq)
          split
          · intro h
            simp at h
          · split
            · intro h
              simp only at h
              rw [Result.Ok.injEq] at h
              subst h; simp [getPlaylist, hpid, hid, storeGet_storeInsert_self]
            · intro h
              simp only at h
              rw [Result.Ok.injEq] at h
              simp [getPlaylist, hpid, heq, h]
        · intro h
          simp at h

/-- C10 witness: an `addSongsToPlaylist` success round-trips through
`getPlaylist` on the sample store. -/
theorem success_result_matches_store_witness :
    getPlaylist "p" (addSongsToPlaylist "p" ["a"] "alice" 9 ssW psW).2 =
      .Ok { plW with
            songs := ["b", "a"], totalDuration := 220, updatedAt := some 9 } :=
  (success_result_matches_store "p" ⟨"n", "d"⟩ ["a"] "b" "alice" 9 ssW psW
    { plW with songs := ["b", "a"], totalDuration := 220, updatedAt := some 9 }
    (by decide) (by decide)).2.1 (by decide)
